import Mathlib

/-!
Shallow embedding of the process-supervision core of the robot_runner
repository (Tauri backend, Rust): the logcat supervision unit
(`src/src-tauri/src/adb/logcat.rs`), the test runner registry
(`src/src-tauri/src/runner.rs`), and the ngrok helper
(`src/src-tauri/src/ngrok.rs`).  Mutex-guarded shared state is modelled by
explicit state passing; `HashMap` registries are modelled as association
lists with unique keys; OS process handles are modelled by numeric ids;
Rust `Result` is `Except`; a Rust slice-index panic is an `Option.none`.
-/

namespace RobotRunner

/-- Lookup in an association list keyed by strings; mirrors `HashMap::get`
(the registries only ever hold one binding per key). -/
def lookupKey {β : Type} : List (String × β) → String → Option β
  | [], _ => none
  | e :: rest, k => if e.1 = k then some e.2 else lookupKey rest k

/-- Remove a key's binding; mirrors `HashMap::remove` on a unique-key map. -/
def removeKey {β : Type} : List (String × β) → String → List (String × β)
  | [], _ => []
  | e :: rest, k => if e.1 = k then removeKey rest k else e :: removeKey rest k

/-! ### Logcat registry (src/src-tauri/src/adb/logcat.rs) -/

/-- One `LogcatProcess` entry (logcat.rs lines 15-22): the restartable child
handle (`Arc<Mutex<Option<Child>>>`, a handle id here), the stop flag, the
shared line buffer, and the optional mirror-file path. -/
structure LogcatProcess where
  child : Option Nat
  should_stop : Bool
  buffer : List String
  output_file : Option String
deriving Repr, DecidableEq

/-- The `LogcatState` registry: device id → supervision unit. -/
abbrev LogcatRegistry := List (String × LogcatProcess)

/-- The header line pushed into a fresh buffer (logcat.rs lines 42-54). -/
def logcatHeader (device : String) (output_file : Option String) : String :=
  match output_file with
  | some path =>
      "--- Logcat started for device: " ++ device ++ " (Writing to " ++ path ++ ") ---"
  | none => "--- Logcat started for device: " ++ device ++ " ---"

/-- `start_logcat` (logcat.rs lines 26-259).  If the device already owns a
unit it returns early with the already-running notice (lines 36-38); the
supervisor thread is spawned only on the insert path, so the returned flag
records whether a supervisor (and hence any OS process) was started. -/
def start_logcat (procs : LogcatRegistry) (device : String)
    (output_file : Option String) : LogcatRegistry × String × Bool :=
  if (lookupKey procs device).isSome then
    (procs, "Logcat already running", false)
  else
    ((device,
      { child := none
        should_stop := false
        buffer := [logcatHeader device output_file]
        output_file := output_file }) :: procs,
     "Logcat started", true)

/-- `stop_logcat` (logcat.rs lines 295-313): `HashMap::remove`; on a hit the
stop flag is set and the current child killed (both belong to the removed
entry), on a miss it returns the not-running notice with `Ok`. -/
def stop_logcat (procs : LogcatRegistry) (device : String) :
    LogcatRegistry × String :=
  match lookupKey procs device with
  | some _ => (removeKey procs device, "Logcat stopped")
  | none => (procs, "Logcat not running")

/-- Rust slice `buf[offset..]`: panics (modelled as `none`) when
`offset > buf.len()`. -/
def sliceFrom (b : List String) (o : Nat) : Option (List String) :=
  if o ≤ b.length then some (b.drop o) else none

/-- `fetch_logcat_buffer` (logcat.rs lines 347-368).  `none` would be a
panic of the slice indexing; the guard at line 359 prevents it. -/
def fetch_logcat_buffer (procs : LogcatRegistry) (device : String)
    (offset : Nat) : Option (List String × Nat) :=
  match lookupKey procs device with
  | some p =>
      let len := p.buffer.length
      if offset ≥ len then some (([], len) : List String × Nat)
      else
        match sliceFrom p.buffer offset with
        | some new_lines => some (new_lines, len)
        | none => none
  | none => some (([], 0) : List String × Nat)

/-- The command handler around `fetch_logcat_buffer`: it only takes read
locks, so the registry it leaves behind is the one it received. -/
def fetch_logcat_handler (procs : LogcatRegistry) (device : String)
    (offset : Nat) : LogcatRegistry × Option (List String × Nat) :=
  (procs, fetch_logcat_buffer procs device offset)

/-- Reading behaviour as the claim words it (spec §4.5 `drain_output` and
claim C10): empty result with offset `0` for an absent key, empty result
with the current length when the offset has run past the buffer, otherwise
the suffix from `offset`. -/
def fetchLogcatSpec (procs : LogcatRegistry) (device : String)
    (offset : Nat) : List String × Nat :=
  match lookupKey procs device with
  | none => ([], 0)
  | some p =>
      if offset ≥ p.buffer.length then ([], p.buffer.length)
      else (p.buffer.drop offset, p.buffer.length)

/-! ### Output relay buffer push (logcat.rs lines 153-159) -/

/-- One relay append: push the line, then evict the oldest 1000-line block
when the buffer has grown past the 10000-line high-water mark
(`b.push(l); if b.len() > 10000 { b.drain(0..1000); }`). -/
def relayPush {α : Type} (b : List α) (l : α) : List α :=
  let b2 := b ++ [l]
  if b2.length > 10000 then b2.drop 1000 else b2

/-! ### Supervisor thread and condition monitor (logcat.rs lines 68-249) -/

/-- Result of one `get_pid` call (logcat.rs lines 261-293):
`Ok(Some(pid))` when `pidof` printed a pid and the process is not
cached/background, `Ok(None)` when `pidof` printed nothing or the
`oom_score_adj` is 900 or more, `Err` when the lookup command itself
failed. -/
inductive PidSample where
  | found (pid : String)
  | absent
  | err
deriving Repr, DecidableEq

/-- Observable supervisor actions: spawning an `adb ... logcat` child with
the given argument list, and explicitly killing the current child. -/
inductive SupEvent where
  | spawn (args : List String)
  | kill
deriving Repr, DecidableEq

/-- Argument list built for the logcat child (logcat.rs lines 101-111):
`--pid <p>` is inserted exactly when a pid was resolved. -/
def logcatArgs (device : String) (pid : Option String) (lvl : String) :
    List String :=
  ["-s", device, "shell", "logcat"]
    ++ (match pid with
        | some p => ["--pid", p]
        | none => [])
    ++ ["-v", "threadtime", "*:" ++ lvl]

/-- The monitor's one-tick verdict on a pid sample, for a unit filtered by
a package whose current spawn used pid `cur` (logcat.rs lines 196-225):
a differing pid or an absent target kills the child and restarts, an
unchanged pid keeps it, and a lookup error (`Err(_) => {}`, line 223) is
ignored — the child keeps running. -/
inductive Verdict where
  | keep
  | restart
deriving Repr, DecidableEq

/-- Monitor verdict per tick (logcat.rs lines 196-225). -/
def monitorVerdict (cur : String) (s : PidSample) : Verdict :=
  match s with
  | .found newPid => if newPid = cur then .keep else .restart
  | .absent => .restart
  | .err => .keep

/-- The supervisor loop of an identity-filtered unit, driven by the list of
successive `get_pid` samples; the child is assumed alive between ticks (the
liveness branch, lines 173-191, does not fire).  State `none` is the
resolving phase (lines 78-99): an absent target and a lookup error both
wait 1500 ms and retry, a found pid spawns the child (lines 113-129).
State `some cur` is the monitor loop (lines 169-227), one sample per tick:
on a pid change or a vanished target the child is taken out of the mutex
and explicitly killed (lines 204-207 and 217-220) before re-resolving; on a
lookup error nothing happens. -/
def supStepRun (device lvl : String) :
    Option String → List PidSample → List SupEvent
  | _, [] => []
  | none, s :: rest =>
      match s with
      | .found pid =>
          .spawn (logcatArgs device (some pid) lvl) ::
            supStepRun device lvl (some pid) rest
      | .absent => supStepRun device lvl none rest
      | .err => supStepRun device lvl none rest
  | some cur, s :: rest =>
      match s with
      | .found newPid =>
          if newPid = cur then supStepRun device lvl (some cur) rest
          else .kill :: supStepRun device lvl none rest
      | .absent => .kill :: supStepRun device lvl none rest
      | .err => supStepRun device lvl (some cur) rest

/-! ### Reader thread and mirror file (logcat.rs lines 131-165) -/

/-- File opens performed by one reader thread (logcat.rs lines 140-142):
the mirror file is opened in create-or-append mode once per thread, before
the line loop, and only when a path was configured. -/
def reader_file_open (mirror : Option String) : Nat :=
  if mirror.isSome then 1 else 0

/-- `writeln!(f, "{}", l)` (logcat.rs line 151): append the line,
newline-terminated, to the file content. -/
def reader_append (content l : String) : String :=
  content ++ l ++ "\n"

/-- File content after the reader thread has relayed `lines`. -/
def reader_writes (content : String) (lines : List String) : String :=
  lines.foldl reader_append content

/-- Number of spawn events in a supervisor trace: one reader thread (and
hence one file open, when a mirror is configured) is started per spawned
child (logcat.rs lines 131-165 sit inside the `Ok(child_proc)` branch). -/
def traceSpawnCount : List SupEvent → Nat
  | [] => 0
  | .spawn _ :: rest => traceSpawnCount rest + 1
  | .kill :: rest => traceSpawnCount rest

/-- Mirror-file opens over a whole unit lifetime whose supervisor produced
`tr`: each spawn starts a fresh reader thread which performs
`reader_file_open mirror` opens. -/
def lifetime_file_opens (mirror : Option String) (tr : List SupEvent) : Nat :=
  traceSpawnCount tr * reader_file_open mirror

/-! ### Incremental polling model (C4): relay appends interleaved with
`fetch_logcat_buffer` polls on one unit.  Lines are identified by their
global append index so that delivery multiplicity is observable. -/

/-- An interleaving step: the relay appends the next line, or the UI polls
passing the offset returned by the previous poll. -/
inductive PollEvent where
  | append
  | poll
deriving Repr, DecidableEq

/-- State of one unit's buffer together with the polling reader:
`buffer` holds global line indices, `next` is the number of lines appended
so far, `evicted` the number of lines evicted from the front, `offset` the
reader's cursor (as returned by the previous poll), `batches` the line
batches returned so far. -/
structure PollState where
  buffer : List Nat
  next : Nat
  evicted : Nat
  offset : Nat
  batches : List (List Nat)
deriving Repr, DecidableEq

/-- The read side of `fetch_logcat_buffer` (logcat.rs lines 358-364) on a
present key. -/
def pollFetch (b : List Nat) (o : Nat) : List Nat × Nat :=
  if o ≥ b.length then ([], b.length) else (b.drop o, b.length)

/-- One interleaving step: `append` runs the relay push (logcat.rs lines
153-159) with the next global index, `poll` runs `fetch_logcat_buffer` with
the reader's stored offset and records the batch. -/
def pollStep (s : PollState) : PollEvent → PollState
  | .append =>
      let b2 := relayPush s.buffer s.next
      { s with
          buffer := b2
          next := s.next + 1
          evicted := s.evicted + (s.buffer.length + 1 - b2.length) }
  | .poll =>
      let r := pollFetch s.buffer s.offset
      { s with offset := r.2, batches := s.batches ++ [r.1] }

/-- Run an interleaving from a fresh unit. -/
def pollRun (evs : List PollEvent) : PollState :=
  evs.foldl pollStep
    { buffer := [], next := 0, evicted := 0, offset := 0, batches := [] }

/-- Concatenation of all batches the reader has received. -/
def pollDelivered (s : PollState) : List Nat :=
  s.batches.flatten

/-! ### Test runner registry (src/src-tauri/src/runner.rs) -/

/-- The `TestState` registry plus a ghost count of OS processes spawned so
far; a handle id is the index of its spawn. -/
structure TestSys where
  procs : List (String × Nat)
  spawnCount : Nat
deriving Repr, DecidableEq

/-- `spawn_and_monitor` (runner.rs lines 343-476), successful-spawn path:
the child is spawned first (lines 362-366) and only afterwards is the
registry checked (lines 415-421); on a duplicate run id the function
returns `Err` and the freshly spawned child is dropped without being
killed. -/
def spawn_and_monitor (st : TestSys) (runId : String) :
    TestSys × Except String String :=
  let handle := st.spawnCount
  let st1 : TestSys := { st with spawnCount := st.spawnCount + 1 }
  if (lookupKey st1.procs runId).isSome then
    (st1, Except.error ("Run ID " ++ runId ++ " already exists"))
  else
    ({ st1 with procs := (runId, handle) :: st1.procs }, Except.ok "Started")

/-- `stop_test` (runner.rs lines 12-40): on a hit the child's tree is
force-killed but the entry stays in the map (the monitor thread removes it
later); on a miss it returns `Err("Test ... not running")`. -/
def stop_test (st : TestSys) (runId : String) :
    TestSys × Except String String :=
  match lookupKey st.procs runId with
  | some _ => (st, Except.ok ("Test " ++ runId ++ " stopped"))
  | none => (st, Except.error ("Test " ++ runId ++ " not running"))

/-- `shutdown_all_tests` (runner.rs lines 42-74): force-kill every entry's
process tree, then clear the map; returns the emptied registry and the
handles that were killed. -/
def shutdown_all_tests (procs : List (String × Nat)) :
    List (String × Nat) × List Nat :=
  ([], procs.map Prod.snd)

/-! ### ngrok helper (src/src-tauri/src/ngrok.rs) -/

/-- `split_whitespace().next().unwrap_or("")`: the first whitespace-free
token of a string, or the empty string. -/
def firstToken (s : String) : String :=
  ((s.split (fun c => c.isWhitespace)).filter (fun t => t ≠ "")).headD ""

/-- URL extraction from one log line (ngrok.rs lines 92-97): find the first
`url=`, take the first whitespace-delimited token after it, and accept it
only if non-empty. -/
def extract_url (l : String) : Option String :=
  match l.splitOn "url=" with
  | [] => none
  | [_] => none
  | _ :: rest =>
      let url := firstToken (String.intercalate "url=" rest)
      if url = "" then none else some url

/-- How the synchronous `start_ngrok` URL wait ends (ngrok.rs lines 75-102):
a URL was found (`Ok`), the 10-second cap fired (`Err` carrying the rolling
debug log), or the stream ended without a URL (`Err` carrying the log). -/
inductive NgrokOutcome where
  | url (u : String)
  | timeout (log : String)
  | eof (log : String)
deriving Repr, DecidableEq

/-- The `start_ngrok` line loop (ngrok.rs lines 75-102) over the stream of
(elapsed seconds, line) pairs; the returned flag records whether
`child.kill()` ran before the return (it does exactly on the timeout path,
line 80).  Per iteration: the elapsed cap is checked first (line 79), then
the line enters the rolling 20-line debug buffer (lines 86-90), then the
URL check runs (lines 92-97). -/
def start_ngrok_loop (buf : List String) :
    List (Nat × String) → NgrokOutcome × Bool
  | [] => (.eof (String.intercalate "\n" buf), false)
  | (elapsed, l) :: rest =>
      if elapsed > 10 then (.timeout (String.intercalate "\n" buf), true)
      else
        let b := buf ++ [l]
        let buf2 := if b.length > 20 then b.drop 1 else b
        match extract_url l with
        | some url => (.url url, false)
        | none => start_ngrok_loop buf2 rest

/-- `shutdown_ngrok` (ngrok.rs lines 144-178): kill the tracked pid (plus a
kill-by-name safety net) but leave the registry cell untouched — the
`*lock = None` is commented out at line 160.  Returns the registry cell as
left behind and the pids killed through it. -/
def shutdown_ngrok (st : Option Nat) : Option Nat × List Nat :=
  match st with
  | some pid => (some pid, [pid])
  | none => (none, [])

/-! ### Application shutdown (C7) -/

/-- Modelled from the spec: the application exit hook lives in the crate
entry point, which is not under src/ (the bundled older entry point,
src/tauri_app/src-tauri/src/lib.rs, registers no teardown at all).  Per the
spec's global-teardown clause ("on application shutdown, every entry must
have its Process Handle terminated") the hook runs `shutdown_all_tests`,
`shutdown_ngrok`, and terminates each logcat entry's current Process
Handle; the spec does not say the hook removes logcat entries.  Returns the
three registries as left behind and every handle that was killed. -/
def app_shutdown (tests : List (String × Nat)) (ngrok : Option Nat)
    (logcat : LogcatRegistry) :
    (List (String × Nat) × Option Nat × LogcatRegistry) × List Nat :=
  let t := shutdown_all_tests tests
  let n := shutdown_ngrok ngrok
  let logcatKilled := logcat.filterMap (fun e => e.2.child)
  let logcat2 := logcat.map (fun e => (e.1, { e.2 with child := none }))
  ((t.1, n.1, logcat2), t.2 ++ n.2 ++ logcatKilled)

/-! ### Helper lemmas -/

/-- Removing one key leaves every other key's binding untouched. -/
theorem lookupKey_removeKey_ne {β : Type} (l : List (String × β))
    (k k' : String) (h : k' ≠ k) :
    lookupKey (removeKey l k) k' = lookupKey l k' := by
  induction l with
  | nil => rfl
  | cons e rest ih =>
    by_cases he : e.1 = k
    · have hek : e.1 ≠ k' := by
        rw [he]
        exact fun hh => h hh.symm
      simp only [removeKey, lookupKey, if_pos he, if_neg hek, ih]
    · simp only [removeKey, lookupKey, if_neg he, ih]

/-! ### Claim C1 -/

/-- Claim C1 as stated: for every key owned by a live unit, a second start
is rejected with an already-running notice, no second OS process is
spawned, and all existing state is unchanged — for the logcat registry and
for the test-runner registry alike. -/
def claimC1 : Prop :=
  (∀ (procs : LogcatRegistry) (d : String) (f : Option String),
      (lookupKey procs d).isSome →
      start_logcat procs d f = (procs, "Logcat already running", false)) ∧
  (∀ (st : TestSys) (k : String),
      (lookupKey st.procs k).isSome →
      ∃ e, spawn_and_monitor st k = (st, Except.error e))

/-- C1, amended: `start_logcat` rejects a duplicate key before anything is
spawned and changes nothing, but `spawn_and_monitor` spawns the child
before the admission check, so a rejected duplicate start still creates
one new OS process (which is dropped unkilled) even though the registry
entry is untouched. -/
theorem c1_duplicate_start (procs : LogcatRegistry) (d : String)
    (f : Option String) (st : TestSys) (k : String)
    (hd : (lookupKey procs d).isSome)
    (hk : (lookupKey st.procs k).isSome) :
    start_logcat procs d f = (procs, "Logcat already running", false) ∧
    spawn_and_monitor st k =
      ({ st with spawnCount := st.spawnCount + 1 },
       Except.error ("Run ID " ++ k ++ " already exists")) := by
  constructor
  · simp [start_logcat, hd]
  · simp [spawn_and_monitor, hk]

/-- Witness for `c1_duplicate_start` at concrete registries. -/
theorem c1_duplicate_start_witness :
    start_logcat [("d", ⟨none, false, [], none⟩)] "d" none
        = ([("d", ⟨none, false, [], none⟩)], "Logcat already running", false) ∧
    spawn_and_monitor ⟨[("r", 0)], 1⟩ "r"
        = (⟨[("r", 0)], 2⟩, Except.error ("Run ID " ++ "r" ++ " already exists")) := by
  exact c1_duplicate_start [("d", ⟨none, false, [], none⟩)] "d" none
    ⟨[("r", 0)], 1⟩ "r" (by simp [lookupKey]) (by simp [lookupKey])

/-- C1 as stated is false: on the test runner a duplicate start leaves a
freshly spawned process behind, so the state is not the old one. -/
theorem c1_counterexample : ¬ claimC1 := by
  intro h
  obtain ⟨e, he⟩ := h.2 ⟨[("r", 0)], 1⟩ "r" (by simp [lookupKey])
  have hc := congrArg (fun p => p.1.spawnCount) he
  simp [spawn_and_monitor, lookupKey] at hc

/-! ### Claim C5 -/

/-- Claim C5 as stated: stopping a key with no live unit is a no-op that
returns a not-running notice rather than an error, for the logcat registry
and for the test-runner registry alike. -/
def claimC5 : Prop :=
  ∀ (procs : LogcatRegistry) (st : TestSys) (k : String),
    lookupKey procs k = none → lookupKey st.procs k = none →
    stop_logcat procs k = (procs, "Logcat not running") ∧
    ∃ msg, stop_test st k = (st, Except.ok msg)

/-- C5, amended: `stop_logcat` on a dead key is a no-op returning the
not-running notice as `Ok`, and stopping a live key removes only that key;
but `stop_test` on a dead key, while also a no-op on the registry, surfaces
the not-running notice as an `Err`. -/
theorem c5_stop_idempotent (procs : LogcatRegistry) (st : TestSys)
    (k k' : String) (hk : lookupKey procs k = none)
    (ht : lookupKey st.procs k = none) (hne : k' ≠ k) :
    stop_logcat procs k = (procs, "Logcat not running") ∧
    lookupKey (stop_logcat procs k').1 k = lookupKey procs k ∧
    stop_test st k = (st, Except.error ("Test " ++ k ++ " not running")) := by
  refine ⟨by simp [stop_logcat, hk], ?_, by simp [stop_test, ht]⟩
  unfold stop_logcat
  cases hl : lookupKey procs k' with
  | none => rfl
  | some p => exact lookupKey_removeKey_ne procs k' k (fun h => hne h.symm)

/-- Witness for `c5_stop_idempotent` at concrete registries. -/
theorem c5_stop_idempotent_witness :
    stop_logcat [("a", ⟨none, false, [], none⟩)] "b"
        = ([("a", ⟨none, false, [], none⟩)], "Logcat not running") ∧
    lookupKey (stop_logcat [("a", ⟨none, false, [], none⟩)] "a").1 "b"
        = lookupKey [("a", ⟨none, false, [], none⟩)] "b" ∧
    stop_test ⟨[], 0⟩ "b"
        = (⟨[], 0⟩, Except.error ("Test " ++ "b" ++ " not running")) :=
  c5_stop_idempotent [("a", ⟨none, false, [], none⟩)] ⟨[], 0⟩ "b" "a"
    (by simp [lookupKey]) (by simp [lookupKey]) (by simp)

/-- C5 as stated is false: `stop_test` on an absent run id returns an
error, not an `Ok` notice. -/
theorem c5_counterexample : ¬ claimC5 := by
  intro h
  obtain ⟨-, msg, hmsg⟩ := h [] ⟨[], 0⟩ "r" rfl rfl
  simp [stop_test, lookupKey] at hmsg

/-! ### Claim C10 -/

/-- C10: `fetch_logcat_buffer` is total (the guarded slice never panics),
matches the spec's case analysis (`([], 0)` on an absent key, `([], len)`
once the offset has caught up), and the handler never mutates the
registry. -/
theorem c10_fetch_total (procs : LogcatRegistry) (d : String) (o : Nat) :
    (fetch_logcat_buffer procs d o).isSome = true ∧
    fetch_logcat_buffer procs d o = some (fetchLogcatSpec procs d o) ∧
    (fetch_logcat_handler procs d o).1 = procs := by
  have h2 : fetch_logcat_buffer procs d o = some (fetchLogcatSpec procs d o) := by
    unfold fetch_logcat_buffer fetchLogcatSpec sliceFrom
    cases lookupKey procs d with
    | none => rfl
    | some p =>
      by_cases ho : o ≥ p.buffer.length
      · simp [ho]
      · have hle : o ≤ p.buffer.length := by omega
        simp [ho, hle]
  refine ⟨by rw [h2]; rfl, h2, rfl⟩

/-! ### Claim C3 -/

/-- One relay push keeps the buffer within one line of the high-water
mark. -/
theorem relayPush_length_le {α : Type} (b : List α) (l : α)
    (h : b.length ≤ 10001) : (relayPush b l).length ≤ 10001 := by
  show (if (b ++ [l]).length > 10000
        then (b ++ [l]).drop 1000 else b ++ [l]).length ≤ 10001
  split <;> rename_i hc <;>
    simp only [List.length_drop, List.length_append, List.length_cons,
      List.length_nil, gt_iff_lt] at hc ⊢ <;> omega

/-- C3: starting from any buffer within the bound (the fresh buffer holds
one header line), every prefix of relay appends observes
`len ≤ 10000 + 1`; and whenever an append pushes the length past the
10000-line high-water mark, exactly the oldest 1000-line block is dropped
from the front. -/
theorem c3_buffer_bounded
    (start pre : List String) (l : String) (b : List String)
    (hs : start.length ≤ 10001) (hb : (b ++ [l]).length > 10000) :
    (List.foldl relayPush start pre).length ≤ 10001 ∧
    relayPush b l = (b ++ [l]).drop 1000 := by
  constructor
  · induction pre generalizing start with
    | nil => exact hs
    | cons x rest ih => exact ih (relayPush start x) (relayPush_length_le start x hs)
  · show (if (b ++ [l]).length > 10000
          then (b ++ [l]).drop 1000 else b ++ [l]) = (b ++ [l]).drop 1000
    rw [if_pos hb]

/-- Witness for `c3_buffer_bounded` at a concrete run. -/
theorem c3_buffer_bounded_witness :
    (List.foldl relayPush ["h"] ["a", "b", "c"]).length ≤ 10001 ∧
    relayPush (List.replicate 10000 "x") "y"
      = (List.replicate 10000 "x" ++ ["y"]).drop 1000 :=
  c3_buffer_bounded ["h"] ["a", "b", "c"] "y" (List.replicate 10000 "x")
    (by simp)
    (by rw [List.length_append, List.length_replicate]; norm_num)

/-! ### Claim C2 -/

/-- C2: for an identity-filtered unit fed the sample sequence
`[A, A, B, B]`, the supervisor's full action trace is: spawn with `--pid A`
(sample 1), no action (sample 2), explicit kill of the old child
(sample 3, the drift), respawn with `--pid B` (sample 4) — exactly one
restart, and the post-restart spawn carries identity `B` in its argument
list. -/
theorem c2_restart_on_drift (device lvl A B : String) (hAB : A ≠ B) :
    supStepRun device lvl none [.found A, .found A, .found B, .found B] =
      [.spawn (logcatArgs device (some A) lvl), .kill,
       .spawn (logcatArgs device (some B) lvl)] ∧
    "--pid" ∈ logcatArgs device (some B) lvl ∧
    B ∈ logcatArgs device (some B) lvl := by
  have hBA : B ≠ A := fun hh => hAB hh.symm
  have hp : "--pid" ∈ logcatArgs device (some B) lvl := by
    show "--pid" ∈ "-s" :: device :: "shell" :: "logcat" :: "--pid" :: B ::
      "-v" :: "threadtime" :: ("*:" ++ lvl) :: []
    exact .tail _ (.tail _ (.tail _ (.tail _ (.head _))))
  have hB : B ∈ logcatArgs device (some B) lvl := by
    show B ∈ "-s" :: device :: "shell" :: "logcat" :: "--pid" :: B ::
      "-v" :: "threadtime" :: ("*:" ++ lvl) :: []
    exact .tail _ (.tail _ (.tail _ (.tail _ (.tail _ (.head _)))))
  refine ⟨?_, hp, hB⟩
  show SupEvent.spawn (logcatArgs device (some A) lvl) ::
      (if A = A
       then supStepRun device lvl (some A) [.found B, .found B]
       else .kill :: supStepRun device lvl none [.found B, .found B]) = _
  rw [if_pos rfl]
  show SupEvent.spawn (logcatArgs device (some A) lvl) ::
      (if B = A
       then supStepRun device lvl (some A) [.found B]
       else .kill :: supStepRun device lvl none [.found B]) = _
  rw [if_neg hBA]
  rfl

/-- Witness for `c2_restart_on_drift` at concrete identities. -/
theorem c2_restart_on_drift_witness :
    supStepRun "emu" "V" none [.found "1", .found "1", .found "2", .found "2"] =
      [.spawn (logcatArgs "emu" (some "1") "V"), .kill,
       .spawn (logcatArgs "emu" (some "2") "V")] ∧
    "--pid" ∈ logcatArgs "emu" (some "2") "V" ∧
    "2" ∈ logcatArgs "emu" (some "2") "V" :=
  c2_restart_on_drift "emu" "V" "1" "2" (by decide)

/-! ### Claim C6 -/

/-- Claim C6 as stated: at every point of the supervisor — resolving phase
and monitor ticks alike — a failed identity lookup produces exactly the
behaviour of a target-absent lookup. -/
def claimC6 : Prop :=
  ∀ (device lvl : String) (st : Option String) (rest : List PidSample),
    supStepRun device lvl st (.err :: rest) =
      supStepRun device lvl st (.absent :: rest)

/-- C6, amended: in the resolving phase a lookup error and an absent
target are indeed treated identically (wait and retry), but in the monitor
loop they differ: an absent target kills the child and restarts
(verdict `restart`), while a lookup error is ignored and the child keeps
running (verdict `keep`). -/
theorem c6_lookup_error_handling :
    (∀ (device lvl : String) (rest : List PidSample),
        supStepRun device lvl none (.err :: rest) =
          supStepRun device lvl none (.absent :: rest)) ∧
    (∀ cur : String,
        monitorVerdict cur .absent = .restart ∧
        monitorVerdict cur .err = .keep) ∧
    (∀ (device lvl cur : String) (rest : List PidSample),
        supStepRun device lvl (some cur) (.err :: rest) =
          supStepRun device lvl (some cur) rest ∧
        supStepRun device lvl (some cur) (.absent :: rest) =
          .kill :: supStepRun device lvl none rest) :=
  ⟨fun _ _ _ => rfl, fun _ => ⟨rfl, rfl⟩, fun _ _ _ _ => ⟨rfl, rfl⟩⟩

/-- C6 as stated is false: on a monitor tick a lookup error leaves the
child running while an absent target kills it. -/
theorem c6_counterexample : ¬ claimC6 := by
  intro h
  have := h "emu" "V" (some "1") []
  simp [supStepRun] at this

/-! ### Claim C8 -/

/-- Claim C8 as stated: over a whole unit lifetime with at least one spawn,
a configured mirror file is opened exactly once. -/
def claimC8 : Prop :=
  ∀ (path : String) (tr : List SupEvent),
    1 ≤ traceSpawnCount tr → lifetime_file_opens (some path) tr = 1

/-- Folding string concatenation from `s` is `s` followed by the fold from
the empty string. -/
theorem string_foldl_append (s : String) (xs : List String) :
    List.foldl (fun r t => r ++ t) s xs =
      s ++ List.foldl (fun r t => r ++ t) "" xs := by
  induction xs generalizing s with
  | nil => simp
  | cons x rest ih =>
    simp only [List.foldl_cons]
    rw [ih (s ++ x), ih ("" ++ x)]
    simp [String.append_assoc]

/-- C8, amended: the mirror file is opened once per spawned reader thread —
that is, once per restart cycle, not once per unit lifetime and not once
per line — and the reader appends every relayed line newline-terminated. -/
theorem c8_mirror_file_opens :
    (∀ (path : String) (tr : List SupEvent),
        lifetime_file_opens (some path) tr = traceSpawnCount tr) ∧
    (∀ tr : List SupEvent, lifetime_file_opens none tr = 0) ∧
    (∀ (content : String) (lines : List String),
        reader_writes content lines =
          content ++ String.join (lines.map (fun l => l ++ "\n"))) := by
  refine ⟨fun path tr => by simp [lifetime_file_opens, reader_file_open],
    fun tr => by simp [lifetime_file_opens, reader_file_open],
    fun content lines => ?_⟩
  induction lines generalizing content with
  | nil => simp [reader_writes, String.join]
  | cons l rest ih =>
    rw [show reader_writes content (l :: rest)
          = reader_writes (reader_append content l) rest from rfl, ih]
    simp only [List.map_cons, String.join, List.foldl_cons]
    rw [string_foldl_append ("" ++ (l ++ "\n")) (rest.map (fun t => t ++ "\n"))]
    simp [reader_append, String.append_assoc]

/-- C8 as stated is false: a lifetime with one restart (the pid drifted
once) opens the mirror file twice. -/
theorem c8_counterexample : ¬ claimC8 := by
  intro h
  have := h "out.txt"
    (supStepRun "emu" "V" none [.found "1", .found "2", .found "2"])
  simp [supStepRun, lifetime_file_opens, traceSpawnCount,
    reader_file_open] at this

/-! ### Claim C9 -/

/-- C9: the synchronous ngrok URL wait. (1) whenever the loop reports the
timeout error, the child was killed on that very path before the return;
(2) while every observed line arrives within the 10-second cap, no timeout
is ever reported; (3) as soon as a line is observed past the cap — with no
earlier line carrying a URL — the loop returns the timeout error at that
iteration, having killed the child, regardless of any later output. -/
theorem c9_timeout_kills_child :
    (∀ (buf : List String) (lines : List (Nat × String)) (log : String),
        (start_ngrok_loop buf lines).1 = .timeout log →
        (start_ngrok_loop buf lines).2 = true) ∧
    (∀ (buf : List String) (lines : List (Nat × String)),
        (∀ e ∈ lines, e.1 ≤ 10) →
        ∀ log : String, (start_ngrok_loop buf lines).1 ≠ .timeout log) ∧
    (∀ (buf : List String) (pre : List (Nat × String)) (e : Nat × String)
        (post : List (Nat × String)),
        (∀ x ∈ pre, x.1 ≤ 10 ∧ extract_url x.2 = none) → e.1 > 10 →
        ∃ log : String,
          start_ngrok_loop buf (pre ++ e :: post) = (.timeout log, true)) := by
  refine ⟨?_, ?_, ?_⟩
  · intro buf lines
    induction lines generalizing buf with
    | nil => intro log h; simp [start_ngrok_loop] at h
    | cons x rest ih =>
      intro log h
      rw [start_ngrok_loop] at h ⊢
      by_cases hx : x.1 > 10
      · simp [hx]
      · simp only [if_neg hx] at h ⊢
        cases hu : extract_url x.2 with
        | some u => rw [hu] at h; simp at h
        | none => rw [hu] at h; exact ih _ log h
  · intro buf lines h
    induction lines generalizing buf with
    | nil => intro log hc; simp [start_ngrok_loop] at hc
    | cons x rest ih =>
      intro log hc
      rw [start_ngrok_loop] at hc
      have hx : ¬ x.1 > 10 := by
        have := h x (List.mem_cons_self x rest)
        omega
      simp only [if_neg hx] at hc
      cases hu : extract_url x.2 with
      | some u => rw [hu] at hc; simp at hc
      | none =>
        rw [hu] at hc
        exact ih _ (fun e he => h e (List.mem_cons_of_mem x he)) log hc
  · intro buf pre e post hpre he
    induction pre generalizing buf with
    | nil =>
      refine ⟨String.intercalate "\n" buf, ?_⟩
      rw [List.nil_append, start_ngrok_loop, if_pos he]
    | cons x rest ih =>
      obtain ⟨hx10, hxurl⟩ := hpre x (List.mem_cons_self x rest)
      rw [List.cons_append, start_ngrok_loop,
        if_neg (by omega : ¬ x.1 > 10), hxurl]
      exact ih _ (fun y hy => hpre y (List.mem_cons_of_mem x hy))

/-- Witness for `c9_timeout_kills_child`: a line arriving after 11 seconds
with no URL seen yet yields the timeout error with the child killed. -/
theorem c9_timeout_kills_child_witness :
    ∃ log : String,
      start_ngrok_loop [] [(11, "boot line")] = (.timeout log, true) :=
  c9_timeout_kills_child.2.2 [] [] (11, "boot line") []
    (fun x hx => absurd hx (List.not_mem_nil x)) (by norm_num)

/-! ### Claim C7 -/

/-- Claim C7 as stated: application shutdown terminates every registry
entry's Process Handle and leaves every registry empty. -/
def claimC7 : Prop :=
  ∀ (tests : List (String × Nat)) (ngrok : Option Nat)
    (logcat : LogcatRegistry),
    (∀ h ∈ tests.map Prod.snd, h ∈ (app_shutdown tests ngrok logcat).2) ∧
    (∀ p : Nat, ngrok = some p → p ∈ (app_shutdown tests ngrok logcat).2) ∧
    (∀ e ∈ logcat, ∀ c : Nat, e.2.child = some c →
        c ∈ (app_shutdown tests ngrok logcat).2) ∧
    (app_shutdown tests ngrok logcat).1.1 = [] ∧
    (app_shutdown tests ngrok logcat).1.2.1 = none ∧
    (app_shutdown tests ngrok logcat).1.2.2 = []

/-- C7, amended: shutdown does terminate every tracked handle — every test
child, the ngrok pid, and (per the spec-modelled exit hook) every logcat
child — and the test registry is cleared; but `shutdown_ngrok` leaves the
stored pid in its registry cell, and the logcat entries remain (with their
handles gone), so only the test registry ends empty. -/
theorem c7_global_teardown (tests : List (String × Nat)) (ngrok : Option Nat)
    (logcat : LogcatRegistry) :
    (∀ h ∈ tests.map Prod.snd, h ∈ (app_shutdown tests ngrok logcat).2) ∧
    (∀ p : Nat, ngrok = some p → p ∈ (app_shutdown tests ngrok logcat).2) ∧
    (∀ e ∈ logcat, ∀ c : Nat, e.2.child = some c →
        c ∈ (app_shutdown tests ngrok logcat).2) ∧
    (app_shutdown tests ngrok logcat).1.1 = [] ∧
    (app_shutdown tests ngrok logcat).1.2.1 = ngrok ∧
    (app_shutdown tests ngrok logcat).1.2.2 =
      logcat.map (fun e => (e.1, { e.2 with child := none })) := by
  refine ⟨?_, ?_, ?_, rfl, ?_, rfl⟩
  · intro h hh
    simp only [app_shutdown, shutdown_all_tests, List.mem_append]
    exact Or.inl (Or.inl hh)
  · intro p hp
    subst hp
    simp [app_shutdown, shutdown_ngrok]
  · intro e he c hc
    have hm : c ∈ List.filterMap (fun e => e.2.child) logcat :=
      List.mem_filterMap.2 ⟨e, he, hc⟩
    simp only [app_shutdown, List.mem_append]
    exact Or.inr hm
  · cases ngrok <;> rfl

/-- Witness for `c7_global_teardown` at concrete registries. -/
theorem c7_global_teardown_witness :
    3 ∈ (app_shutdown [("r", 3)] (some 5)
          [("d", ⟨some 7, false, [], none⟩)]).2 ∧
    5 ∈ (app_shutdown [("r", 3)] (some 5)
          [("d", ⟨some 7, false, [], none⟩)]).2 ∧
    7 ∈ (app_shutdown [("r", 3)] (some 5)
          [("d", ⟨some 7, false, [], none⟩)]).2 ∧
    (app_shutdown [("r", 3)] (some 5)
      [("d", ⟨some 7, false, [], none⟩)]).1.1 = [] := by
  have h := c7_global_teardown [("r", 3)] (some 5)
    [("d", ⟨some 7, false, [], none⟩)]
  exact ⟨h.1 3 (by simp), h.2.1 5 rfl,
    h.2.2.1 ("d", ⟨some 7, false, [], none⟩) (by simp) 7 rfl, h.2.2.2.1⟩

/-- C7 as stated is false: `shutdown_ngrok` leaves the pid in its registry
cell, so the ngrok registry does not end empty. -/
theorem c7_counterexample : ¬ claimC7 := by
  intro h
  have := (h [] (some 5) []).2.2.2.2.1
  simp [app_shutdown, shutdown_ngrok, shutdown_all_tests] at this

/-! ### Claim C4: machinery -/

/-- Dropping from a contiguous range shifts its base. -/
theorem range1_drop : ∀ (k s n : Nat),
    (List.range' s n).drop k = List.range' (s + k) (n - k)
  | 0, s, n => by simp
  | k + 1, s, 0 => by simp
  | k + 1, s, n + 1 => by
    rw [List.range'_succ, List.drop_succ_cons, range1_drop k (s + 1) n]
    congr 1 <;> omega

/-- A poll whose stored offset is still inside the buffer returns the
suffix from the offset and moves the cursor to the buffer length. -/
theorem pollStep_poll_lt (s : PollState) (h : s.offset < s.buffer.length) :
    pollStep s .poll =
      { s with offset := s.buffer.length,
               batches := s.batches ++ [s.buffer.drop s.offset] } := by
  simp [pollStep, pollFetch, Nat.not_le.2 h]

/-- A poll whose stored offset has run past the buffer returns an empty
batch and clamps the cursor to the buffer length. -/
theorem pollStep_poll_ge (s : PollState) (h : s.offset ≥ s.buffer.length) :
    pollStep s .poll =
      { s with offset := s.buffer.length, batches := s.batches ++ [[]] } := by
  simp [pollStep, pollFetch, h]

/-- An append that stays within the high-water mark just extends the
buffer. -/
theorem pollStep_append_keep (s : PollState)
    (h : s.buffer.length + 1 ≤ 10000) :
    pollStep s .append =
      { s with buffer := s.buffer ++ [s.next], next := s.next + 1 } := by
  have hlen : (s.buffer ++ [s.next]).length = s.buffer.length + 1 := by simp
  have hc : ¬ (s.buffer ++ [s.next]).length > 10000 := by omega
  simp only [pollStep, relayPush, if_neg hc]
  have : s.evicted + (s.buffer.length + 1 - (s.buffer ++ [s.next]).length)
      = s.evicted := by omega
  rw [this]

/-- An append that crosses the high-water mark evicts exactly the oldest
1000 lines. -/
theorem pollStep_append_evict (s : PollState)
    (h : s.buffer.length + 1 > 10000) :
    pollStep s .append =
      { s with buffer := (s.buffer ++ [s.next]).drop 1000,
               next := s.next + 1,
               evicted := s.evicted + 1000 } := by
  have hlen : (s.buffer ++ [s.next]).length = s.buffer.length + 1 := by simp
  have hc : (s.buffer ++ [s.next]).length > 10000 := by omega
  simp only [pollStep, relayPush, if_pos hc]
  have : s.evicted + (s.buffer.length + 1 - ((s.buffer ++ [s.next]).drop 1000).length)
      = s.evicted + 1000 := by
    simp only [List.length_drop, hlen]
    omega
  rw [this]

/-- Invariant of the polling model: the buffer is the contiguous window of
global indices `[evicted, next)`, and the lines delivered so far are
pairwise distinct, all below the reader's global cursor
`evicted + offset`, and all below `next`. -/
def PollInv (s : PollState) : Prop :=
  s.buffer = List.range' s.evicted (s.next - s.evicted) ∧
  s.evicted ≤ s.next ∧
  (pollDelivered s).Nodup ∧
  (∀ x ∈ pollDelivered s, x < s.evicted + s.offset) ∧
  (∀ x ∈ pollDelivered s, x < s.next)

/-- Completeness invariant in the eviction-free regime: while nothing has
been evicted, the delivered lines are exactly the prefix below the
cursor. -/
def PollInv0 (s : PollState) : Prop :=
  s.evicted = 0 →
    pollDelivered s = List.range' 0 s.offset ∧ s.offset ≤ s.buffer.length

/-- Both invariants hold at the fresh state. -/
theorem pollInv_init :
    PollInv { buffer := [], next := 0, evicted := 0, offset := 0, batches := [] } ∧
    PollInv0 { buffer := [], next := 0, evicted := 0, offset := 0, batches := [] } := by
  refine ⟨⟨rfl, Nat.le_refl 0, ?_, ?_, ?_⟩, ?_⟩ <;>
    simp [pollDelivered, PollInv0]

/-- One step preserves both invariants. -/
theorem pollStep_inv (s : PollState) (e : PollEvent)
    (hI : PollInv s) (h0 : PollInv0 s) :
    PollInv (pollStep s e) ∧ PollInv0 (pollStep s e) := by
  obtain ⟨hw, hen, hnd, hbd, hnx⟩ := hI
  have hlen : s.buffer.length = s.next - s.evicted := by rw [hw]; simp
  cases e with
  | append =>
    by_cases hc : s.buffer.length + 1 ≤ 10000
    · rw [pollStep_append_keep s hc]
      refine ⟨⟨?_, ?_, hnd, ?_, ?_⟩, ?_⟩
      · show s.buffer ++ [s.next] = List.range' s.evicted (s.next + 1 - s.evicted)
        rw [hw]
        have h1 : s.next + 1 - s.evicted = (s.next - s.evicted) + 1 := by omega
        have h2 : s.evicted + (s.next - s.evicted) = s.next := by omega
        rw [h1, List.range'_1_concat, h2]
      · show s.evicted ≤ s.next + 1
        omega
      · intro x hx
        show x < s.evicted + s.offset
        exact hbd x hx
      · intro x hx
        show x < s.next + 1
        exact Nat.lt_succ_of_lt (hnx x hx)
      · intro h
        obtain ⟨hd, ho⟩ := h0 h
        refine ⟨hd, ?_⟩
        show s.offset ≤ (s.buffer ++ [s.next]).length
        simp only [List.length_append, List.length_cons, List.length_nil]
        omega
    · rw [pollStep_append_evict s (by omega)]
      refine ⟨⟨?_, ?_, hnd, ?_, ?_⟩, ?_⟩
      · show (s.buffer ++ [s.next]).drop 1000
            = List.range' (s.evicted + 1000) (s.next + 1 - (s.evicted + 1000))
        rw [hw]
        have h2 : s.evicted + (s.next - s.evicted) = s.next := by omega
        have h3 : List.range' s.evicted (s.next - s.evicted) ++ [s.next]
            = List.range' s.evicted (s.next - s.evicted + 1) := by
          rw [List.range'_1_concat, h2]
        rw [h3, range1_drop]
        have h4 : s.next - s.evicted + 1 - 1000
            = s.next + 1 - (s.evicted + 1000) := by omega
        rw [h4]
      · show s.evicted + 1000 ≤ s.next + 1
        omega
      · intro x hx
        show x < s.evicted + 1000 + s.offset
        have := hbd x hx
        omega
      · intro x hx
        show x < s.next + 1
        exact Nat.lt_succ_of_lt (hnx x hx)
      · intro h
        have h' : s.evicted + 1000 = 0 := h
        omega
  | poll =>
    by_cases hc : s.offset < s.buffer.length
    · rw [pollStep_poll_lt s hc]
      have hbatch : s.buffer.drop s.offset
          = List.range' (s.evicted + s.offset) (s.next - s.evicted - s.offset) := by
        rw [hw, range1_drop]
      have hdel : pollDelivered
            { s with offset := s.buffer.length,
                     batches := s.batches ++ [s.buffer.drop s.offset] }
          = pollDelivered s ++ s.buffer.drop s.offset := by
        simp [pollDelivered]
      refine ⟨⟨hw, hen, ?_, ?_, ?_⟩, ?_⟩
      · rw [hdel]
        refine hnd.append ?_ ?_
        · rw [hbatch]
          exact List.nodup_range' _ _
        · intro x hx hx'
          have h1 := hbd x hx
          rw [hbatch] at hx'
          have h2 := (List.mem_range'_1.1 hx').1
          omega
      · intro x hx
        rw [hdel] at hx
        show x < s.evicted + s.buffer.length
        rcases List.mem_append.1 hx with hx | hx
        · have := hnx x hx
          omega
        · rw [hbatch] at hx
          have := (List.mem_range'_1.1 hx).2
          omega
      · intro x hx
        rw [hdel] at hx
        show x < s.next
        rcases List.mem_append.1 hx with hx | hx
        · exact hnx x hx
        · rw [hbatch] at hx
          have := (List.mem_range'_1.1 hx).2
          omega
      · intro h
        have h' : s.evicted = 0 := h
        obtain ⟨hd, -⟩ := h0 h'
        refine ⟨?_, Nat.le_refl _⟩
        rw [hdel]
        show pollDelivered s ++ s.buffer.drop s.offset
            = List.range' 0 s.buffer.length
        rw [hd, hbatch, h', List.range'_append_1, hlen, h']
        congr 1
        omega
    · rw [pollStep_poll_ge s (Nat.le_of_not_lt hc)]
      have hdel : pollDelivered
            { s with offset := s.buffer.length, batches := s.batches ++ [[]] }
          = pollDelivered s := by
        simp [pollDelivered]
      refine ⟨⟨hw, hen, by rw [hdel]; exact hnd, ?_, ?_⟩, ?_⟩
      · intro x hx
        rw [hdel] at hx
        show x < s.evicted + s.buffer.length
        have := hnx x hx
        omega
      · intro x hx
        rw [hdel] at hx
        show x < s.next
        exact hnx x hx
      · intro h
        have h' : s.evicted = 0 := h
        obtain ⟨hd, ho⟩ := h0 h'
        have heq : s.offset = s.buffer.length :=
          Nat.le_antisymm ho (Nat.le_of_not_lt hc)
        refine ⟨?_, Nat.le_refl _⟩
        rw [hdel]
        show pollDelivered s = List.range' 0 s.buffer.length
        rw [hd, heq]

/-- Both invariants hold after any run. -/
theorem pollRun_inv (evs : List PollEvent) :
    PollInv (pollRun evs) ∧ PollInv0 (pollRun evs) := by
  suffices h : ∀ (l : List PollEvent) (s : PollState), PollInv s → PollInv0 s →
      PollInv (l.foldl pollStep s) ∧ PollInv0 (l.foldl pollStep s) from
    h evs _ pollInv_init.1 pollInv_init.2
  intro l
  induction l with
  | nil => intro s h1 h2; exact ⟨h1, h2⟩
  | cons e rest ih =>
    intro s h1 h2
    have hs := pollStep_inv s e h1 h2
    exact ih (pollStep s e) hs.1 hs.2

/-- An eviction-free run of `k` appends fills the buffer with the first `k`
global indices. -/
theorem pollRun_appends : ∀ k : Nat, k ≤ 10000 →
    pollRun (List.replicate k .append)
      = PollState.mk (List.range' 0 k) k 0 0 [] := by
  intro k
  induction k with
  | zero => intro _; rfl
  | succ k ih =>
    intro hk
    rw [List.replicate_succ']
    have hsplit : pollRun (List.replicate k .append ++ [.append])
        = pollStep (pollRun (List.replicate k .append)) .append := by
      unfold pollRun
      rw [List.foldl_append, List.foldl_cons, List.foldl_nil]
    rw [hsplit, ih (by omega),
      pollStep_append_keep _ (by
        show (List.range' 0 k).length + 1 ≤ 10000
        rw [List.length_range']
        omega)]
    show PollState.mk (List.range' 0 k ++ [k]) (k + 1) 0 0 []
        = PollState.mk (List.range' 0 (k + 1)) (k + 1) 0 0 []
    have hcat : List.range' 0 (k + 1) = List.range' 0 k ++ [k] := by
      have := List.range'_1_concat 0 k
      simpa using this
    rw [hcat]

/-- The interleaving of claim C4's counterexample: fill the buffer to the
high-water mark, poll everything, append one more line (which evicts the
oldest 1000), then poll again. -/
def evictionTrace : List PollEvent :=
  List.replicate 10000 .append ++ [.poll, .append, .poll]

/-- Final state of the counterexample interleaving: line 10000 was appended
and never evicted (only lines 0-999 were), yet the two polls returned only
lines 0-9999 and then an empty batch with the cursor clamped to 9001. -/
theorem pollRun_evictionTrace :
    pollRun evictionTrace
      = PollState.mk (List.range' 1000 9001) 10001 1000 9001
          [List.range' 0 10000, []] := by
  have h0 := pollRun_appends 10000 (by norm_num)
  have e1 : pollStep (PollState.mk (List.range' 0 10000) 10000 0 0 []) .poll
      = PollState.mk (List.range' 0 10000) 10000 0 10000
          [List.range' 0 10000] := by
    rw [pollStep_poll_lt _ (by
      show (0:Nat) < (List.range' 0 10000).length
      rw [List.length_range']
      norm_num)]
    show PollState.mk (List.range' 0 10000) 10000 0
        ((List.range' 0 10000).length) [(List.range' 0 10000).drop 0] = _
    rw [List.length_range', List.drop_zero]
  have e2 : pollStep
        (PollState.mk (List.range' 0 10000) 10000 0 10000
          [List.range' 0 10000]) .append
      = PollState.mk (List.range' 1000 9001) 10001 1000 10000
          [List.range' 0 10000] := by
    rw [pollStep_append_evict _ (by
      show (List.range' 0 10000).length + 1 > 10000
      rw [List.length_range']
      norm_num)]
    have hb : (List.range' 0 10000 ++ [(10000:Nat)]).drop 1000
        = List.range' 1000 9001 := by
      have hcat : List.range' 0 10001 = List.range' 0 10000 ++ [10000] := by
        have := List.range'_1_concat 0 10000
        simpa using this
      rw [← hcat, range1_drop]
    show PollState.mk ((List.range' 0 10000 ++ [(10000:Nat)]).drop 1000)
        10001 1000 10000 [List.range' 0 10000] = _
    rw [hb]
  have e3 : pollStep
        (PollState.mk (List.range' 1000 9001) 10001 1000 10000
          [List.range' 0 10000]) .poll
      = PollState.mk (List.range' 1000 9001) 10001 1000 9001
          [List.range' 0 10000, []] := by
    rw [pollStep_poll_ge _ (by
      show (10000:Nat) ≥ (List.range' 1000 9001).length
      rw [List.length_range']
      norm_num)]
    show PollState.mk (List.range' 1000 9001) 10001 1000
        ((List.range' 1000 9001).length) [List.range' 0 10000, []] = _
    rw [List.length_range']
  have hsplit : pollRun evictionTrace
      = List.foldl pollStep (pollRun (List.replicate 10000 .append))
          [.poll, .append, .poll] := by
    unfold pollRun evictionTrace
    rw [List.foldl_append]
  rw [hsplit, h0, List.foldl_cons, e1, List.foldl_cons, e2,
    List.foldl_cons, e3, List.foldl_nil]

/-- The claim's concrete scenario: five appends, then two polls. -/
theorem pollRun_five :
    pollRun (List.replicate 5 .append ++ [.poll, .poll])
      = PollState.mk (List.range' 0 5) 5 0 5 [List.range' 0 5, []] := by
  have h0 := pollRun_appends 5 (by norm_num)
  have e1 : pollStep (PollState.mk (List.range' 0 5) 5 0 0 []) .poll
      = PollState.mk (List.range' 0 5) 5 0 5 [List.range' 0 5] := by
    rw [pollStep_poll_lt _ (by
      show (0:Nat) < (List.range' 0 5).length
      rw [List.length_range']
      norm_num)]
    show PollState.mk (List.range' 0 5) 5 0 ((List.range' 0 5).length)
        [(List.range' 0 5).drop 0] = _
    rw [List.length_range', List.drop_zero]
  have e2 : pollStep (PollState.mk (List.range' 0 5) 5 0 5 [List.range' 0 5])
        .poll
      = PollState.mk (List.range' 0 5) 5 0 5 [List.range' 0 5, []] := by
    rw [pollStep_poll_ge _ (by
      show (5:Nat) ≥ (List.range' 0 5).length
      rw [List.length_range'])]
    show PollState.mk (List.range' 0 5) 5 0 ((List.range' 0 5).length)
        [List.range' 0 5, []] = _
    rw [List.length_range']
  have hsplit : pollRun (List.replicate 5 .append ++ [.poll, .poll])
      = List.foldl pollStep (pollRun (List.replicate 5 .append))
          [.poll, .poll] := by
    unfold pollRun
    rw [List.foldl_append]
  rw [hsplit, h0, List.foldl_cons, e1, List.foldl_cons, e2, List.foldl_nil]

/-- Claim C4 as stated: across every interleaving of relay appends and
chained polls, the concatenated batches contain each appended line at most
once and omit none that the cursor has passed except lines evicted from
the front; and the concrete five-line scenario returns the five lines with
offset 5 and then an empty batch with offset 5. -/
def claimC4 : Prop :=
  ∀ evs : List PollEvent,
    (pollDelivered (pollRun evs)).Nodup ∧
    (∀ i : Nat, i < (pollRun evs).evicted + (pollRun evs).offset →
        i ∉ pollDelivered (pollRun evs) → i < (pollRun evs).evicted) ∧
    (pollRun (List.replicate 5 .append ++ [.poll, .poll])).batches
      = [List.range' 0 5, []] ∧
    (pollRun (List.replicate 5 .append ++ [.poll, .poll])).offset = 5

/-- C4, amended: chained polling never duplicates a line, and while no
eviction has occurred it misses none (the delivered lines are exactly the
prefix below the returned offset); the concrete five-line scenario holds.
The omit-only-evicted part of the claim is dropped: after an eviction the
cursor is an index into the shifted buffer, so a poller can permanently
miss lines that were never evicted (see the counterexample). -/
theorem c4_poll_correctness :
    (∀ evs : List PollEvent, (pollDelivered (pollRun evs)).Nodup) ∧
    (∀ evs : List PollEvent, (pollRun evs).evicted = 0 →
        pollDelivered (pollRun evs) = List.range' 0 (pollRun evs).offset) ∧
    (pollRun (List.replicate 5 .append ++ [.poll, .poll])).batches
      = [List.range' 0 5, []] ∧
    (pollRun (List.replicate 5 .append ++ [.poll, .poll])).offset = 5 := by
  refine ⟨fun evs => (pollRun_inv evs).1.2.2.1,
    fun evs h => ((pollRun_inv evs).2 h).1, ?_, ?_⟩
  · rw [pollRun_five]
  · rw [pollRun_five]

/-- Witness for `c4_poll_correctness`: one append then one poll evicts
nothing, and the delivered lines are exactly the prefix below the
offset. -/
theorem c4_poll_correctness_witness :
    pollDelivered (pollRun [PollEvent.append, PollEvent.poll])
      = List.range' 0 (pollRun [PollEvent.append, PollEvent.poll]).offset :=
  c4_poll_correctness.2.1 [PollEvent.append, PollEvent.poll] rfl

/-- C4 as stated is false: in the counterexample interleaving the cursor
(global position 1000 + 9001) has passed line 10000, line 10000 was never
evicted (only lines 0-999 were), yet no batch ever contained it. -/
theorem c4_counterexample : ¬ claimC4 := by
  intro h
  obtain ⟨-, homit, -, -⟩ := h evictionTrace
  rw [pollRun_evictionTrace] at homit
  have h1 : (10000:Nat) ∉ pollDelivered
      (PollState.mk (List.range' 1000 9001) 10001 1000 9001
        [List.range' 0 10000, []]) := by
    show (10000:Nat) ∉ ([List.range' 0 10000, []] : List (List Nat)).flatten
    simp [List.mem_range'_1]
  have h2 := homit 10000 (by show (10000:Nat) < 1000 + 9001; norm_num) h1
  have h3 : (10000:Nat) < 1000 := h2
  omega

end RobotRunner
